import Mathlib

/-!
Verification of the sisu cloud-resource FUSE filesystem.

This file shallowly embeds the parts of the Go source that the checked
claims are about:

* the TTL cache (`internal/cache`): `Cache.Get` / `Cache.Set`;
* the SSM parameter-store provider (`internal/provider/ssm.go`):
  `Read`, `Write` with their trailing-newline normalization;
* the S3 object-store provider (`internal/provider/s3.go`):
  `listObjects` with the `_more_results.txt` truncation entry, `Read`,
  `statUncached`, `Write`;
* the filesystem engine (`internal/fs`): `parsePath`, `GetAttr`,
  `OpenDir`, `Mkdir`, `Unlink`, `Create`, and the write-handle methods
  `writeableSisuFile.Write` / `Flush` / `Truncate` / `Release`.

Byte strings and paths are modelled as `List Char` (the contents involved
are text; only byte-for-byte equality and the `'\n'` / `'/'` bytes
matter).  Go maps are modelled as association lists.  Cloud backends are
modelled as explicit stores (SSM parameters, S3 objects) or abstract
oracles (provider stat/readdir/delete as the engine sees them); functions
that issue backend API calls additionally return the number of calls
made, so that "without any backend call" is statable.  Wall-clock time is
a `Nat` argument.  Concurrency (locks) is not modelled: every claim here
is about the sequential semantics of single operations.
-/

set_option maxRecDepth 8000

namespace Sisu

/-- Byte strings / paths, as lists of characters. -/
abbrev Str := List Char

/-- Association-list lookup, modelling Go map indexing `m[k]`. -/
def lookupAssoc {κ ν : Type} [DecidableEq κ] : List (κ × ν) → κ → Option ν
  | [], _ => none
  | (k', v) :: rest, k => if k' = k then some v else lookupAssoc rest k

/-- Association-list update, modelling Go map assignment `m[k] = v`. -/
def setAssoc {κ ν : Type} [DecidableEq κ] : List (κ × ν) → κ → ν → List (κ × ν)
  | [], k, v => [(k, v)]
  | (k', v') :: rest, k, v =>
    if k' = k then (k, v) :: rest else (k', v') :: setAssoc rest k v

/-- Association-list removal, modelling Go `delete(m, k)`. -/
def eraseKey {κ ν : Type} [DecidableEq κ] : List (κ × ν) → κ → List (κ × ν)
  | [], _ => []
  | (k', v) :: rest, k =>
    if k' = k then eraseKey rest k else (k', v) :: eraseKey rest k

theorem lookupAssoc_setAssoc_same {κ ν : Type} [DecidableEq κ]
    (l : List (κ × ν)) (k : κ) (v : ν) :
    lookupAssoc (setAssoc l k v) k = some v := by
  induction l with
  | nil => simp [setAssoc, lookupAssoc]
  | cons hd tl ih =>
    cases hd with
    | mk k' v' =>
      by_cases h : k' = k
      · simp [setAssoc, lookupAssoc, h]
      · simp [setAssoc, lookupAssoc, h, ih]

theorem lookupAssoc_eraseKey_same {κ ν : Type} [DecidableEq κ]
    (l : List (κ × ν)) (k : κ) :
    lookupAssoc (eraseKey l k) k = none := by
  induction l with
  | nil => simp [eraseKey, lookupAssoc]
  | cons hd tl ih =>
    cases hd with
    | mk k' v' =>
      by_cases h : k' = k
      · simpa [eraseKey, h] using ih
      · simp [eraseKey, lookupAssoc, h, ih]

/-- Go `strings.SplitN(s, "/", 2)` restricted to a one-character
separator: the part before the first separator, and (when the separator
occurs) the unsplit remainder. -/
def splitFirst (sep : Char) : Str → Str × Option Str
  | [] => ([], none)
  | c :: rest =>
    if c = sep then ([], some rest)
    else
      let p := splitFirst sep rest
      (c :: p.1, p.2)

/-- Go `strings.SplitN(s, sep, n+1)`: at most `n+1` pieces, the last one
being the unsplit remainder. -/
def splitN (sep : Char) : Nat → Str → List Str
  | 0, s => [s]
  | Nat.succ n, s =>
    match splitFirst sep s with
    | (a, none) => [a]
    | (a, some rest) => a :: splitN sep n rest

theorem splitFirst_append (sep : Char) (a b : Str) (h : sep ∉ a) :
    splitFirst sep (a ++ sep :: b) = (a, some b) := by
  induction a with
  | nil => simp [splitFirst]
  | cons c rest ih =>
    simp only [List.mem_cons, not_or] at h
    have hc : ¬ c = sep := fun hcs => h.1 hcs.symm
    simp [splitFirst, hc, ih h.2]

/-- The part of `s` after its last `'/'` (all of `s` when there is none):
what the engine computes with `strings.LastIndex(name, "/")`. -/
def baseName (s : Str) : Str :=
  (s.reverse.takeWhile (fun c => c ≠ '/')).reverse

/-- Whether a string ends in a newline: Go `strings.HasSuffix(s, "\n")`,
specialized to the one-character suffix. -/
def hasNl (s : Str) : Bool := s.getLast? = some '\n'

/-- Append a newline when absent, as `SSMProvider.Read` does before
returning a parameter value. -/
def withNl (s : Str) : Str := if hasNl s then s else s ++ ['\n']

/-- Go `strings.TrimSuffix(s, "\n")`: drop one trailing newline when
present, as `SSMProvider.Write` does before storing. -/
def trimNl (s : Str) : Str := if hasNl s then s.dropLast else s

/-- Drop every trailing newline; two byte strings are "the same modulo
trailing-newline normalization" when this agrees on them. -/
def stripNls (s : Str) : Str :=
  (s.reverse.dropWhile (fun c => c = '\n')).reverse

theorem stripNls_append_nl (s : Str) : stripNls (s ++ ['\n']) = stripNls s := by
  simp [stripNls, List.dropWhile]

theorem stripNls_withNl (s : Str) : stripNls (withNl s) = stripNls s := by
  unfold withNl
  by_cases h : hasNl s
  · simp [h]
  · simp [h, stripNls_append_nl]

theorem dropLast_append_nl (s : Str) (h : hasNl s = true) :
    s.dropLast ++ ['\n'] = s := by
  have h' : s.getLast? = some '\n' := by
    unfold hasNl at h
    exact of_decide_eq_true h
  have hne : s ≠ [] := by
    intro he
    subst he
    simp at h'
  have hg : s.getLast hne = '\n' := by
    have hgl := List.getLast?_eq_getLast s hne
    rw [hgl, Option.some.injEq] at h'
    exact h'
  conv_rhs => rw [← List.dropLast_append_getLast hne, hg]

theorem stripNls_trimNl (s : Str) : stripNls (trimNl s) = stripNls s := by
  unfold trimNl
  by_cases h : hasNl s
  · simp only [h, if_true]
    conv_rhs => rw [← dropLast_append_nl s h]
    rw [stripNls_append_nl]
  · simp [h]

/-! ## TTL cache (`internal/cache/cache.go`)

`Cache.Get` holds only the read lock and mutates nothing; we model it in
state-passing style, returning the (unchanged) cache alongside the
result, so that "the lookup does not resurrect or refresh the entry" is
a provable statement rather than a convention.  `time.Now()` is the
explicit `now : Nat` argument; `t1.After(t2)` is `t2 < t1`. -/

/-- A cached item: `cache.Entry` (value plus absolute expiry time). -/
structure CEntry (α : Type) where
  value : α
  expiresAt : Nat
deriving DecidableEq

/-- The TTL cache: entries map plus the construction-time TTL. -/
structure Cache (α : Type) where
  entries : List (Str × CEntry α)
  ttl : Nat
deriving DecidableEq

/-- `Cache.Get`: a missing key is a miss, an entry with
`now.After(expiresAt)` (that is `expiresAt < now`) is a miss; otherwise
the value is returned.  The cache is returned unchanged. -/
def cacheGet {α : Type} (c : Cache α) (now : Nat) (key : Str) :
    Option α × Cache α :=
  match lookupAssoc c.entries key with
  | none => (none, c)
  | some e => if e.expiresAt < now then (none, c) else (some e.value, c)

/-- `Cache.Set`: store the value with expiry `now + ttl`. -/
def cacheSet {α : Type} (c : Cache α) (now : Nat) (key : Str) (v : α) :
    Cache α :=
  { c with entries := setAssoc c.entries key ⟨v, now + c.ttl⟩ }

/-! ## Write handle (`writeableSisuFile`, second revision of fs.go)

The handle's `bytes.Buffer` is its list of bytes. -/

/-- `writeableSisuFile.Write`: at offset 0 the buffer is reset first,
then the data is appended; the byte count written is returned. -/
def wfWrite (buf : Str) (data : Str) (off : Int) : Str × Nat :=
  (if off = 0 then data else buf ++ data, data.length)

/-- `writeableSisuFile.Truncate`: only size 0 resets the buffer; every
other size leaves it untouched.  The call always succeeds. -/
def wfTruncate (size : Nat) (buf : Str) : Str × Bool :=
  (if size = 0 then [] else buf, true)

/-! ## SSM parameter-store provider (`internal/provider/ssm.go`)

The backend parameter store is an association list from full parameter
names (with their leading `/`) to values.  `Read` does not consult the
provider cache in the source, and `Write` always invalidates the
relevant keys, so the cache is irrelevant to the read/write round trip
and is not repeated here (it is modelled once, above). -/

/-- The SSM backend state: parameter name (leading `/` included) to
value. -/
structure SSMState where
  params : List (Str × Str)
deriving DecidableEq

/-- `SSMProvider.Read`: prefix the subpath with `/`, fetch the
parameter (a missing parameter is an error, here `none`), and append a
trailing newline when the value lacks one. -/
def ssmRead (st : SSMState) (path : Str) : Option Str :=
  (lookupAssoc st.params ('/' :: path)).map withNl

/-- `SSMProvider.Write`: prefix the subpath with `/`, strip one
trailing newline from the data, and store the result
(overwrite-allowed).  The backend call is modelled as succeeding. -/
def ssmWrite (st : SSMState) (path : Str) (data : Str) : SSMState :=
  ⟨setAssoc st.params ('/' :: path) (trimNl data)⟩

/-! ## S3 object-store provider (`internal/provider/s3.go`)

The backend is a set of buckets and an association list from
(bucket, key) to object bytes.  Functions that would issue backend API
calls also return how many such calls they made, so the synthesized
`_more_results.txt` behavior ("no backend call") is statable.
Last-modified timestamps are backend metadata that no claim consults;
they are reported as 0. -/

/-- A directory entry as providers produce it (`provider.Entry`). -/
structure Entry where
  name : Str
  isDir : Bool
  size : Int
  modTime : Int
deriving DecidableEq

/-- The hard cap on object-store directory entries (`maxS3Entries`). -/
def maxS3Entries : Nat := 100

/-- The name of the synthesized truncation entry. -/
def moreName : Str := "_more_results.txt".toList

/-- `moreResultsMessage`: the human-readable truncation message; `%d`
is the decimal rendering of `shown`. -/
def moreResultsMessage (shown : Nat) : Str :=
  "Showing first ".toList ++ (Nat.repr shown).toList
    ++ (" entries. There are more results not displayed.\n"
        ++ "Use AWS CLI for full listing: aws s3 ls s3://bucket/prefix/\n").toList

/-- One object of a `ListObjectsV2` response. -/
structure S3Obj where
  key : Str
  size : Int
  modTime : Int
deriving DecidableEq

/-- The fields of a `ListObjectsV2` backend response that
`S3Provider.listObjects` consumes. -/
structure S3ListResp where
  commonPrefixes : List Str
  contents : List S3Obj
  isTruncated : Bool
deriving DecidableEq

/-- Go `strings.TrimPrefix`: drop `pre` when it is a prefix, else
return `s` unchanged. -/
def stripLead (pre s : Str) : Str :=
  if pre.isPrefixOf s then s.drop pre.length else s

/-- Go `strings.TrimSuffix(s, "/")` for the one-character suffix. -/
def stripSlash (s : Str) : Str :=
  if s.getLast? = some '/' then s.dropLast else s

/-- `S3Provider.listObjects`, as a function of the backend response:
common prefixes become directory entries, objects become file entries
(skipping empty and bare-`/` names after prefix stripping), and when the
response reports truncation a single `_more_results.txt` entry is
appended whose size is the length of the message for the count of
entries accumulated so far. -/
def listObjects (resp : S3ListResp) (pre : Str) : List Entry :=
  let dirs := resp.commonPrefixes.filterMap fun cp =>
    let n := stripSlash (stripLead pre cp)
    if n = [] then none else some ⟨n, true, 0, 0⟩
  let files := resp.contents.filterMap fun o =>
    let n := stripLead pre o.key
    if n = [] ∨ n = ['/'] then none
    else some ⟨n, false, o.size, o.modTime⟩
  let es := dirs ++ files
  if resp.isTruncated then
    es ++ [⟨moreName, false, Int.ofNat (moreResultsMessage es.length).length, 0⟩]
  else
    es

/-- The S3 backend state: existing buckets, and object bytes keyed by
(bucket, key). -/
structure S3State where
  buckets : List Str
  objects : List ((Str × Str) × Str)
deriving DecidableEq

/-- `S3Provider.Read` (result, backend-call count): a path without a
`/` is invalid; a key ending in `_more_results.txt` returns the
synthesized message for the cap without any backend call; otherwise one
`GetObject` call fetches the bytes. -/
def s3Read (st : S3State) (path : Str) : Option Str × Nat :=
  match splitFirst '/' path with
  | (_, none) => (none, 0)
  | (bucket, some key) =>
    if moreName.isSuffixOf key then
      (some (moreResultsMessage maxS3Entries), 0)
    else
      match lookupAssoc st.objects (bucket, key) with
      | some data => (some data, 1)
      | none => (none, 1)

/-- `S3Provider.statUncached` (result, backend-call count): a bare
bucket is `HeadBucket`-verified; a key ending in `_more_results.txt`
yields the synthesized entry without any backend call; otherwise a
one-key list distinguishes a directory prefix, falling through to
`HeadObject`. -/
def s3StatUncached (st : S3State) (path : Str) : Option Entry × Nat :=
  match splitFirst '/' path with
  | (bucket, none) =>
    if bucket ∈ st.buckets then (some ⟨bucket, true, 0, 0⟩, 1) else (none, 1)
  | (bucket, some key) =>
    if moreName.isSuffixOf key then
      (some ⟨moreName, false,
        Int.ofNat (moreResultsMessage maxS3Entries).length, 0⟩, 0)
    else if st.objects.any fun kv =>
        kv.1.1 = bucket ∧ (key ++ ['/']).isPrefixOf kv.1.2 then
      (some ⟨key, true, 0, 0⟩, 1)
    else
      match lookupAssoc st.objects (bucket, key) with
      | some data => (some ⟨key, false, Int.ofNat data.length, 0⟩, 2)
      | none => (none, 2)

/-- `S3Provider.Write` for a path already split into bucket and key:
`PutObject` stores the bytes (cache invalidation for the parent listing
and the path's stat follows in the source; the read path below is
uncached, so it is not repeated here). -/
def s3Write (st : S3State) (bucket key : Str) (data : Str) : S3State :=
  { st with objects := setAssoc st.objects (bucket, key) data }

/-! ## Filesystem engine (second revision of fs.go)

The engine's two overlay tables (pending writes, virtual dirs) and its
configuration are the `EngineState`.  The providers the engine would
obtain from `getProvider` are abstract oracles keyed by
(profile, actual region, service, subpath); `getProvider` returns a nil
provider (surfaced as not-found) exactly for services outside its
`switch`, and provider construction is assumed to succeed.  Where the Go
code ranges over a map (the `global` services listing) the model uses
the fixed list; iteration order is not the subject of any claim. -/

/-- Services visible under the `global` region (`globalServices`). -/
def globalServicesL : List Str := ["iam".toList, "s3".toList]

/-- Services visible under real regions (`regionalServices`). -/
def regionalServicesL : List Str :=
  ["ssm".toList, "vpc".toList, "lambda".toList, "ec2".toList]

/-- Services supporting write/delete (`writableServices`). -/
def writableServicesL : List Str := ["s3".toList, "ssm".toList]

/-- Services `getProvider` can construct (its `switch` cases). -/
def knownServicesL : List Str :=
  ["s3".toList, "ssm".toList, "vpc".toList, "iam".toList,
   "lambda".toList, "ec2".toList]

/-- Shell/tooling probe names rejected without a backend call
(`ignoredFiles`). -/
def ignoredFilesL : List Str :=
  [".git", "HEAD", ".hg", ".svn", ".gitignore", ".gitmodules",
   ".DS_Store", "Thumbs.db"].map String.toList

/-- The `global` region sentinel. -/
def glbl : Str := "global".toList

/-- The region substituted for `global` before provider dispatch. -/
def usEast1 : Str := "us-east-1".toList

/-- The engine's rewrite of the `global` sentinel. -/
def actualRegion (r : Str) : Str := if r = glbl then usEast1 else r

/-- The engine's in-memory state: known profiles, configured regions,
the pending-writes table (full path to the registered handle's current
buffer), and the virtual-dirs table. -/
structure EngineState where
  profiles : List Str
  regions : List Str
  pendingFiles : List (Str × Str)
  virtualDirs : List Str
deriving DecidableEq

/-- File attributes as `GetAttr` reports them (`fuse.Attr`): kind,
permission bits, size, mtime. -/
structure Attr where
  isDir : Bool
  perm : Nat
  size : Int
  mtime : Int
deriving DecidableEq

/-- A `fuse.DirEntry` as `OpenDir` reports it. -/
structure DirEntry where
  name : Str
  isDir : Bool
  perm : Nat
deriving DecidableEq

/-- Kernel-facing status codes used by the modelled callbacks. -/
inductive FStatus
  | ok
  | noent
  | perm
  | ioerr
  | rofs
deriving DecidableEq

/-- The provider's error kinds as the engine can observe them:
`fs.ErrPermission` (what every read-only provider returns) versus any
other (backend) failure. -/
inductive ProvErr
  | permission
  | backend
deriving DecidableEq

/-- A provider `Stat` oracle: (profile, actual region, service,
subpath) to the stat result (`none` = error). -/
abbrev PStat := Str → Str → Str → Str → Option Entry

/-- A provider `ReadDir` oracle (`none` = error). -/
abbrev PReadDir := Str → Str → Str → Str → Option (List Entry)

/-- A provider `Delete` oracle (`some e` = failure of kind `e`). -/
abbrev PDelete := Str → Str → Str → Str → Option ProvErr

/-- `SisuFS.parsePath`: `strings.SplitN(path, "/", 4)` assigned in
order to profile, region, service, subpath, missing parts empty.  The
Go function's `ok` result is always true and is omitted. -/
def parsePath (name : Str) : Str × Str × Str × Str :=
  match splitN '/' 3 name with
  | [p] => (p, [], [], [])
  | [p, r] => (p, r, [], [])
  | [p, r, s] => (p, r, s, [])
  | p :: r :: s :: sub :: _ => (p, r, s, sub)
  | [] => ([], [], [], [])

/-- `SisuFS.GetAttr`.  Result: the attributes (`none` = ENOENT, the
only error this callback returns) paired with whether a provider `Stat`
call was made.  Branch order follows the source: root, ignored probe
names, pending files, virtual dirs, profile level, region level,
service level, provider delegation. -/
def getAttr (st : EngineState) (pstat : PStat) (name : Str) :
    Option Attr × Bool :=
  if name = [] then (some ⟨true, 0o777, 0, 0⟩, false)
  else if ignoredFilesL.contains (baseName name) then (none, false)
  else
    let q := parsePath name
    let profile := q.1
    let region := q.2.1
    let service := q.2.2.1
    let subpath := q.2.2.2
    match lookupAssoc st.pendingFiles name with
      | some buf => (some ⟨false, 0o666, Int.ofNat buf.length, 0⟩, false)
      | none =>
        if st.virtualDirs.contains name then (some ⟨true, 0o777, 0, 0⟩, false)
        else if region = [] then
          (if st.profiles.contains profile then some ⟨true, 0o555, 0, 0⟩
           else none, false)
        else if service = [] then
          (if region = glbl ∨ st.regions.contains region then
            some ⟨true, 0o555, 0, 0⟩
           else none, false)
        else if subpath = [] then
          let mode := if writableServicesL.contains service then 0o755 else 0o555
          if (region = glbl ∧ globalServicesL.contains service)
              ∨ regionalServicesL.contains service then
            (some ⟨true, mode, 0, 0⟩, false)
          else (none, false)
        else
          if knownServicesL.contains service then
            match pstat profile (actualRegion region) service subpath with
            | none => (none, true)
            | some e =>
              if e.isDir then
                (some ⟨true,
                  if writableServicesL.contains service then 0o755 else 0o555,
                  e.size, e.modTime⟩, true)
              else
                (some ⟨false,
                  if writableServicesL.contains service then 0o644 else 0o444,
                  e.size, e.modTime⟩, true)
          else (none, false)

/-- `SisuFS.OpenDir`: root lists profiles; the profile level lists
`global` plus the configured regions; the region level lists the
services for that level; below that the provider's `ReadDir` is
consulted, and on a nil provider or a provider error a virtual
directory still yields the empty listing. -/
def openDir (st : EngineState) (prd : PReadDir) (name : Str) :
    Except FStatus (List DirEntry) :=
  if name = [] then
    Except.ok (st.profiles.map fun p => ⟨p, true, 0o555⟩)
  else
    let q := parsePath name
    let profile := q.1
    let region := q.2.1
    let service := q.2.2.1
    let subpath := q.2.2.2
    if region = [] then
      Except.ok (⟨glbl, true, 0o555⟩
        :: st.regions.map fun r => ⟨r, true, 0o555⟩)
    else if service = [] then
      let services := if region = glbl then globalServicesL
        else regionalServicesL
      Except.ok (services.map fun s =>
        ⟨s, true, if writableServicesL.contains s then 0o755 else 0o555⟩)
    else
      if knownServicesL.contains service then
        match prd profile (actualRegion region) service subpath with
        | some es =>
          Except.ok (es.map fun e =>
            if e.isDir then
              ⟨e.name, true,
                if writableServicesL.contains service then 0o755 else 0o555⟩
            else
              ⟨e.name, false,
                if writableServicesL.contains service then 0o644 else 0o444⟩)
        | none =>
          if st.virtualDirs.contains name then Except.ok []
          else Except.error FStatus.ioerr
      else
        if st.virtualDirs.contains name then Except.ok []
        else Except.error FStatus.noent

/-- `SisuFS.Mkdir`: add the path to the virtual-dirs table
unconditionally and return OK.  The method makes no provider call
(it takes no provider input at all).  Go map insertion is modelled as
cons; the later checks consult membership only. -/
def mkdir (st : EngineState) (name : Str) : EngineState × FStatus :=
  ({ st with virtualDirs := name :: st.virtualDirs }, FStatus.ok)

/-- `SisuFS.Unlink`: a path without a provider subpath is EPERM; a
service outside `getProvider`'s switch gives a nil provider, ENOENT;
otherwise the provider's `Delete` is called and any failure whatsoever
is surfaced as EIO. -/
def unlink (pdel : PDelete) (name : Str) : FStatus :=
  let q := parsePath name
  if q.2.2.2 = [] then FStatus.perm
  else if knownServicesL.contains q.2.2.1 then
    match pdel q.1 (actualRegion q.2.1) q.2.2.1 q.2.2.2 with
    | none => FStatus.ok
    | some _ => FStatus.ioerr
  else FStatus.noent

/-- `ReadOnlyProvider.Delete`: fail with `fs.ErrPermission` for every
input, regardless of path. -/
def readOnlyDelete : PDelete := fun _ _ _ _ => some ProvErr.permission

/-- `SisuFS.Create`: a path without a provider subpath is EPERM; an
unknown service is ENOENT; otherwise a write handle with an empty
buffer is registered in the pending-writes table under the full path. -/
def engCreate (st : EngineState) (name : Str) : EngineState × FStatus :=
  let q := parsePath name
  if q.2.2.2 = [] then (st, FStatus.perm)
  else if knownServicesL.contains q.2.2.1 then
    ({ st with pendingFiles := setAssoc st.pendingFiles name [] },
     FStatus.ok)
  else (st, FStatus.noent)

/-- The engine-side effect of `writeableSisuFile.Release`: the pending
entry for the handle's full path is deleted (the handle's buffer is
also reset, which no longer matters to the engine). -/
def releasePending (st : EngineState) (name : Str) : EngineState :=
  { st with pendingFiles := eraseKey st.pendingFiles name }

/-! ## Provider dispatch for the write round trip

For the end-to-end `create; write; flush; release; read` sequence the
provider behind the handle is one of the two writable ones. -/

/-- The state of the provider a write handle commits to. -/
inductive ProvSt
  | ssm (st : SSMState)
  | s3 (st : S3State)
deriving DecidableEq

/-- The provider's `Write` as `Flush` calls it: SSM stores the
trimmed value; S3 requires a bucket/key path and PUTs the bytes
(`none` = provider error, surfaced by `Flush` as EIO). -/
def provWrite : ProvSt → Str → Str → Option ProvSt
  | ProvSt.ssm st, path, data => some (ProvSt.ssm (ssmWrite st path data))
  | ProvSt.s3 st, path, data =>
    match splitFirst '/' path with
    | (_, none) => none
    | (bucket, some key) => some (ProvSt.s3 (s3Write st bucket key data))

/-- The provider's `Read` as `Open` calls it. -/
def provRead : ProvSt → Str → Option Str
  | ProvSt.ssm st, path => ssmRead st path
  | ProvSt.s3 st, path => (s3Read st path).1

/-- `writeableSisuFile.Flush`: an empty buffer is not committed (the
provider is not called); otherwise the whole buffer is handed to the
provider's `Write`. -/
def wfFlush (p : ProvSt) (path : Str) (buf : Str) : Option ProvSt :=
  if buf.length = 0 then some p else provWrite p path buf

/-- The observable of `create(P); write(P, B, 0); flush; release;
read(P)`: `Create` hands out a handle with an empty buffer, the
offset-0 write makes the buffer exactly `B` (`wfWrite`), `Flush`
commits it, `Release` only clears engine bookkeeping, and the final
`read` is the provider's `Read` of the same subpath.  Returns the bytes
read (`none` = some step failed) and the final provider state. -/
def writeSeqRead (p : ProvSt) (path : Str) (data : Str) :
    Option Str × ProvSt :=
  let buf := (wfWrite [] data 0).1
  match wfFlush p path buf with
  | none => (none, p)
  | some p2 => (provRead p2 path, p2)

/-! ## Shared lemmas -/

theorem moreName_isSuffixOf_self : moreName.isSuffixOf moreName = true := by
  decide

theorem baseName_nil : baseName [] = [] := rfl

/-! ## Claims -/

/-- C4: on the parameter store, read returns the stored value with a
single trailing newline appended when the value lacks one; write stores
the given bytes with one trailing newline stripped; and
read-then-write-then-read yields the same bytes up to trailing-newline
normalization (stripping all trailing newlines from either result gives
the same bytes). -/
theorem ssm_read_write_roundtrip (st : SSMState) (path value : Str)
    (h : lookupAssoc st.params ('/' :: path) = some value) :
    ssmRead st path = some (withNl value)
    ∧ (∀ data, lookupAssoc (ssmWrite st path data).params ('/' :: path)
        = some (trimNl data))
    ∧ (∀ r1, ssmRead st path = some r1 →
        ∃ r2, ssmRead (ssmWrite st path r1) path = some r2
          ∧ stripNls r2 = stripNls r1) := by
  refine ⟨?_, ?_, ?_⟩
  · simp [ssmRead, h]
  · intro data
    simp [ssmWrite, lookupAssoc_setAssoc_same]
  · intro r1 _
    refine ⟨withNl (trimNl r1), ?_, ?_⟩
    · simp [ssmRead, ssmWrite, lookupAssoc_setAssoc_same]
    · rw [stripNls_withNl, stripNls_trimNl]

/-- C4 witness: a concrete parameter whose stored value is `v`;
reading, writing the read bytes back and re-reading agrees modulo
trailing newlines. -/
theorem ssm_read_write_roundtrip_witness :
    ∃ r2, ssmRead (ssmWrite ⟨[('/' :: "p".toList, "v".toList)]⟩
        "p".toList "v\n".toList) "p".toList = some r2
      ∧ stripNls r2 = stripNls "v\n".toList :=
  (ssm_read_write_roundtrip ⟨[('/' :: "p".toList, "v".toList)]⟩
    "p".toList "v".toList (by decide)).2.2 "v\n".toList (by decide)

/-- C6: the cache's get never returns an entry whose expiry is strictly
before the current time — a strictly expired entry is a miss — and the
lookup leaves the cache unchanged (no resurrection, no refresh). -/
theorem cache_get_never_expired {α : Type} (c : Cache α) (now : Nat)
    (key : Str) :
    (∀ v, (cacheGet c now key).1 = some v →
      ∃ e, lookupAssoc c.entries key = some e ∧ e.value = v
        ∧ now ≤ e.expiresAt)
    ∧ (∀ e, lookupAssoc c.entries key = some e → e.expiresAt < now →
        (cacheGet c now key).1 = none)
    ∧ (cacheGet c now key).2 = c := by
  unfold cacheGet
  cases hl : lookupAssoc c.entries key with
  | none =>
    refine ⟨?_, ?_, rfl⟩
    · intro v hv
      simp at hv
    · intro e he
      simp at he
  | some e =>
    by_cases hexp : e.expiresAt < now
    · refine ⟨?_, ?_, by simp [hexp]⟩
      · intro v hv
        simp [hexp] at hv
      · intro e' _ _
        simp [hexp]
    · refine ⟨?_, ?_, by simp [hexp]⟩
      · intro v hv
        simp [hexp] at hv
        exact ⟨e, rfl, hv, Nat.le_of_not_lt hexp⟩
      · intro e' he' hexp'
        simp only [Option.some.injEq] at he'
        subst he'
        exact absurd hexp' hexp

/-- C6 witness: a concrete entry expired at time 5 is a miss at
time 10. -/
theorem cache_get_never_expired_witness :
    (cacheGet (⟨[("k".toList, ⟨7, 5⟩)], 3⟩ : Cache Nat) 10 "k".toList).1
      = none :=
  (cache_get_never_expired (⟨[("k".toList, ⟨7, 5⟩)], 3⟩ : Cache Nat) 10
    "k".toList).2.1 ⟨7, 5⟩ (by decide) (by decide)

/-- C8: a path whose basename is one of the ignored probe names is
rejected by the engine's stat with not-found, before the pending,
virtual or provider layers are consulted and with no provider call. -/
theorem getattr_ignored_shortcircuit (st : EngineState) (pstat : PStat)
    (name : Str) (h : baseName name ∈ ignoredFilesL) :
    getAttr st pstat name = (none, false) := by
  have hne : ¬ name = [] := by
    intro he
    subst he
    rw [baseName_nil] at h
    exact absurd h (by decide)
  unfold getAttr
  rw [if_neg hne, if_pos (by simpa using h)]

/-- C8 witness: stat of a `.git` probe under a provider path is
not-found without any provider call, whatever the provider would have
answered. -/
theorem getattr_ignored_shortcircuit_witness :
    getAttr ⟨["default".toList], ["us-east-1".toList], [], []⟩
      (fun _ _ _ _ => some ⟨"x".toList, false, 1, 0⟩)
      "default/us-east-1/s3/b/.git".toList = (none, false) :=
  getattr_ignored_shortcircuit _ _ _ (by decide)

/-- C9: for any object-store path whose key ends in
`_more_results.txt`, read returns the synthesized truncation message
and stat the synthesized entry, both without a single backend call;
consequently the bytes of a genuinely stored object under such a key
cannot be read (the synthesized message shadows them). -/
theorem s3_more_results_shadowing (st : S3State) (bucket key : Str)
    (hb : '/' ∉ bucket) (hsfx : moreName.isSuffixOf key = true) :
    s3Read st (bucket ++ '/' :: key)
      = (some (moreResultsMessage maxS3Entries), 0)
    ∧ s3StatUncached st (bucket ++ '/' :: key)
        = (some ⟨moreName, false,
            Int.ofNat (moreResultsMessage maxS3Entries).length, 0⟩, 0)
    ∧ (∀ data, lookupAssoc st.objects (bucket, key) = some data →
        data ≠ moreResultsMessage maxS3Entries →
        (s3Read st (bucket ++ '/' :: key)).1 ≠ some data) := by
  have hr : s3Read st (bucket ++ '/' :: key)
      = (some (moreResultsMessage maxS3Entries), 0) := by
    unfold s3Read
    rw [splitFirst_append _ _ _ hb]
    simp [hsfx]
  refine ⟨hr, ?_, ?_⟩
  · unfold s3StatUncached
    rw [splitFirst_append _ _ _ hb]
    simp [hsfx]
  · intro data _ hne hcontra
    rw [hr] at hcontra
    simp only [Option.some.injEq] at hcontra
    exact hne hcontra.symm

/-- C9 witness: a real object stored under `k/_more_results.txt` with
content `real`; reading the path yields the synthesized message, not
the stored bytes. -/
theorem s3_more_results_shadowing_witness :
    s3Read ⟨[], [(("b".toList, "k/_more_results.txt".toList),
        "real".toList)]⟩
      ("b".toList ++ '/' :: "k/_more_results.txt".toList)
      = (some (moreResultsMessage maxS3Entries), 0) :=
  (s3_more_results_shadowing _ "b".toList "k/_more_results.txt".toList
    (by decide) (by decide)).1

/-- C10: truncate at any nonzero size succeeds while leaving the write
handle's buffer untouched; only truncate(0) resets it. -/
theorem truncate_nonzero_noop (size : Nat) (buf : Str) (h : size ≠ 0) :
    wfTruncate size buf = (buf, true) ∧ wfTruncate 0 buf = ([], true) := by
  unfold wfTruncate
  simp [h]

/-- C10 witness: truncate(5) keeps a two-byte buffer intact. -/
theorem truncate_nonzero_noop_witness :
    wfTruncate 5 "ab".toList = ("ab".toList, true) :=
  (truncate_nonzero_noop 5 "ab".toList (by decide)).1

theorem provWrite_s3 (st : S3State) (bucket key data : Str)
    (hb : '/' ∉ bucket) :
    provWrite (ProvSt.s3 st) (bucket ++ '/' :: key) data
      = some (ProvSt.s3 (s3Write st bucket key data)) := by
  simp only [provWrite]
  rw [splitFirst_append _ _ _ hb]

theorem s3Read_after_write (st : S3State) (bucket key data : Str)
    (hb : '/' ∉ bucket) (hsfx : moreName.isSuffixOf key = false) :
    (s3Read (s3Write st bucket key data) (bucket ++ '/' :: key)).1
      = some data := by
  unfold s3Read
  rw [splitFirst_append _ _ _ hb]
  simp [hsfx, s3Write, lookupAssoc_setAssoc_same]

/-- C1 counterexample: on a parameter-store path the sequence
`create(P); write(P, B, 0); flush; release; read(P)` does not return
exactly `B` for `B = "a"`: the provider's write stores the bytes and
the read appends a trailing newline, so the sequence returns `"a\n"`. -/
theorem create_write_flush_read_counterexample :
    (writeSeqRead (ProvSt.ssm ⟨[]⟩) "p".toList "a".toList).1
        ≠ some "a".toList
    ∧ (writeSeqRead (ProvSt.ssm ⟨[]⟩) "p".toList "a".toList).1
        = some "a\n".toList := by
  decide

/-- C1 as amended: the offset-0 write clears the buffer and appends the
data; on an object-store path `bucket/key` (key not ending in
`_more_results.txt`) with nonempty content the sequence returns exactly
`B`; on a parameter-store path it returns `B` with a trailing newline
stripped and then re-appended (the trailing-newline normalization); and
an empty content is never committed — flush skips the provider write
and the provider state is unchanged. -/
theorem create_write_flush_read :
    (∀ buf data : Str, wfWrite buf data 0 = (data, data.length))
    ∧ (∀ (st : S3State) (bucket key B : Str), '/' ∉ bucket → B ≠ [] →
        moreName.isSuffixOf key = false →
        (writeSeqRead (ProvSt.s3 st) (bucket ++ '/' :: key) B).1 = some B)
    ∧ (∀ (st : SSMState) (path B : Str), B ≠ [] →
        (writeSeqRead (ProvSt.ssm st) path B).1
          = some (withNl (trimNl B)))
    ∧ (∀ (p : ProvSt) (path : Str),
        writeSeqRead p path [] = (provRead p path, p)) := by
  refine ⟨?_, ?_, ?_, ?_⟩
  · intro buf data
    simp [wfWrite]
  · intro st bucket key B hb hB hsfx
    have hbuf : (wfWrite [] B 0).1 = B := by simp [wfWrite]
    have hlen : ¬ B.length = 0 := by simpa using hB
    have hflush : wfFlush (ProvSt.s3 st) (bucket ++ '/' :: key) B
        = some (ProvSt.s3 (s3Write st bucket key B)) := by
      unfold wfFlush
      rw [if_neg hlen]
      exact provWrite_s3 st bucket key B hb
    simp only [writeSeqRead, hbuf, hflush]
    simp only [provRead]
    exact s3Read_after_write st bucket key B hb hsfx
  · intro st path B hB
    have hbuf : (wfWrite [] B 0).1 = B := by simp [wfWrite]
    have hlen : ¬ B.length = 0 := by simpa using hB
    have hflush : wfFlush (ProvSt.ssm st) path B
        = some (ProvSt.ssm (ssmWrite st path B)) := by
      unfold wfFlush
      rw [if_neg hlen]
      rfl
    simp only [writeSeqRead, hbuf, hflush]
    simp [provRead, ssmRead, ssmWrite, lookupAssoc_setAssoc_same]
  · intro p path
    simp [writeSeqRead, wfWrite, wfFlush]

/-- C1 witness: the amended S3 round trip at the concrete path `b/k`
and content `xyz`. -/
theorem create_write_flush_read_witness :
    (writeSeqRead (ProvSt.s3 ⟨[], []⟩)
        ("b".toList ++ '/' :: "k".toList) "xyz".toList).1
      = some "xyz".toList :=
  create_write_flush_read.2.1 ⟨[], []⟩ "b".toList "k".toList
    "xyz".toList (by decide) (by decide) (by decide)

/-- C2 counterexample: unlink on a path routed to a read-only provider
(whose delete fails with the permission error for every input) surfaces
EIO, not EPERM as the claim states. -/
theorem unlink_errors_counterexample :
    unlink readOnlyDelete "default/us-east-1/ec2/i-1/info.json".toList
        = FStatus.ioerr
    ∧ FStatus.ioerr ≠ FStatus.perm := by
  decide

/-- C2 as amended: the engine surfaces every provider delete failure as
an I/O error (EIO), permission errors included; read-only providers
fail delete with the permission error for any input, so unlink on their
paths yields EIO rather than EPERM. -/
theorem unlink_errors_surface_as_ioerr (pdel : PDelete)
    (name p r s sub : Str) (e : ProvErr)
    (hparse : parsePath name = (p, r, s, sub)) (hsub : sub ≠ [])
    (hknown : s ∈ knownServicesL)
    (hdel : pdel p (actualRegion r) s sub = some e) :
    unlink pdel name = FStatus.ioerr
    ∧ (∀ p2 r2 s2 sub2 : Str,
        readOnlyDelete p2 r2 s2 sub2 = some ProvErr.permission) := by
  constructor
  · unfold unlink
    rw [hparse]
    simp [hsub, hknown, hdel]
  · intro p2 r2 s2 sub2
    rfl

/-- C2 witness: the amended statement at the concrete compute-instance
path, with the read-only provider's delete. -/
theorem unlink_errors_surface_as_ioerr_witness :
    unlink readOnlyDelete "default/us-east-1/ec2/i-1/info.json".toList
      = FStatus.ioerr :=
  (unlink_errors_surface_as_ioerr readOnlyDelete
    "default/us-east-1/ec2/i-1/info.json".toList
    "default".toList "us-east-1".toList "ec2".toList
    "i-1/info.json".toList ProvErr.permission
    (by decide) (by decide) (by decide) rfl).1

/-- C3: when the backend reports truncation (the cap is 100 entries),
the listing is the untruncated listing plus exactly one synthesized
entry named `_more_results.txt`; that key stats to the synthesized
entry without a backend call, and reading it yields the human-readable
message, which names the cap (its decimal rendering occurs in the
message). -/
theorem s3_truncated_listing (resp : S3ListResp) (pre : Str)
    (h : resp.isTruncated = true) :
    (listObjects resp pre
      = listObjects { resp with isTruncated := false } pre
        ++ [⟨moreName, false,
            Int.ofNat (moreResultsMessage
              (listObjects { resp with isTruncated := false }
                pre).length).length, 0⟩])
    ∧ maxS3Entries = 100
    ∧ (∀ (st : S3State) (bucket : Str), '/' ∉ bucket →
        s3StatUncached st (bucket ++ '/' :: moreName)
          = (some ⟨moreName, false,
              Int.ofNat (moreResultsMessage maxS3Entries).length, 0⟩, 0))
    ∧ (∀ (st : S3State) (bucket : Str), '/' ∉ bucket →
        s3Read st (bucket ++ '/' :: moreName)
          = (some (moreResultsMessage maxS3Entries), 0))
    ∧ (∃ a b : Str, moreResultsMessage maxS3Entries
        = a ++ (Nat.repr maxS3Entries).toList ++ b) := by
  refine ⟨?_, rfl, ?_, ?_, ?_⟩
  · simp [listObjects, h]
  · intro st bucket hb
    unfold s3StatUncached
    rw [splitFirst_append _ _ _ hb]
    simp [moreName_isSuffixOf_self]
  · intro st bucket hb
    unfold s3Read
    rw [splitFirst_append _ _ _ hb]
    simp [moreName_isSuffixOf_self]
  · exact ⟨"Showing first ".toList,
      (" entries. There are more results not displayed.\n"
        ++ "Use AWS CLI for full listing: aws s3 ls s3://bucket/prefix/\n").toList,
      rfl⟩

/-- C3 witness: a concrete truncated response with one common prefix
and one object; the listing is the two base entries plus the single
synthesized `_more_results.txt` entry. -/
theorem s3_truncated_listing_witness :
    listObjects ⟨["pre/a/".toList], [⟨"pre/f.txt".toList, 3, 0⟩], true⟩
        "pre/".toList
      = listObjects
          { (⟨["pre/a/".toList], [⟨"pre/f.txt".toList, 3, 0⟩], true⟩ :
              S3ListResp) with isTruncated := false } "pre/".toList
        ++ [⟨moreName, false,
            Int.ofNat (moreResultsMessage
              (listObjects
                { (⟨["pre/a/".toList], [⟨"pre/f.txt".toList, 3, 0⟩],
                    true⟩ : S3ListResp) with isTruncated := false }
                "pre/".toList).length).length, 0⟩] :=
  (s3_truncated_listing
    ⟨["pre/a/".toList], [⟨"pre/f.txt".toList, 3, 0⟩], true⟩
    "pre/".toList rfl).1

/-- C5 counterexample: `Create` on a path whose basename is in the
ignored probe set registers a pending-write handle, yet stat of that
path is not-found rather than a regular file, because the ignored-name
check precedes the pending-files check. -/
theorem pending_stat_counterexample :
    ((engCreate ⟨["default".toList], ["us-east-1".toList], [], []⟩
        "default/us-east-1/s3/b/.gitignore".toList).2 = FStatus.ok)
    ∧ lookupAssoc (engCreate ⟨["default".toList], ["us-east-1".toList],
          [], []⟩
        "default/us-east-1/s3/b/.gitignore".toList).1.pendingFiles
        "default/us-east-1/s3/b/.gitignore".toList = some []
    ∧ (getAttr (engCreate ⟨["default".toList], ["us-east-1".toList],
          [], []⟩
          "default/us-east-1/s3/b/.gitignore".toList).1
        (fun _ _ _ _ => none)
        "default/us-east-1/s3/b/.gitignore".toList).1 = none := by
  decide

/-- C5 as amended: while a pending-write handle for a nonempty path P
whose basename is not an ignored probe name is registered, stat of P
reports a regular file of size the handle's current buffer length,
without consulting any provider (so regardless of whether a backing
resource exists); and release removes the pending entry. -/
theorem pending_stat_size (st : EngineState) (pstat : PStat)
    (name buf : Str) (hne : name ≠ [])
    (hign : baseName name ∉ ignoredFilesL)
    (hp : lookupAssoc st.pendingFiles name = some buf) :
    getAttr st pstat name
      = (some ⟨false, 0o666, Int.ofNat buf.length, 0⟩, false)
    ∧ lookupAssoc (releasePending st name).pendingFiles name = none := by
  constructor
  · unfold getAttr
    rw [if_neg hne, if_neg (by simpa using hign)]
    simp [hp]
  · simp [releasePending, lookupAssoc_eraseKey_same]

/-- C5 witness: a registered two-byte pending buffer under an s3 path
stats as a regular file of size 2, with a provider oracle that knows
nothing about the path. -/
theorem pending_stat_size_witness :
    getAttr ⟨["default".toList], ["us-east-1".toList],
        [("default/us-east-1/s3/b/k".toList, "hi".toList)], []⟩
      (fun _ _ _ _ => none) "default/us-east-1/s3/b/k".toList
      = (some ⟨false, 0o666, Int.ofNat ("hi".toList).length, 0⟩, false) :=
  (pending_stat_size _ _ _ _ (by decide) (by decide) (by decide)).1

/-- C7 counterexample: mkdir adds a path whose basename is `.git` to
the virtual-dirs table (it is unconditional), but stat of that path is
not-found rather than a directory, because the ignored-name check
precedes the virtual-dirs check. -/
theorem virtualdir_counterexample :
    ((mkdir ⟨["default".toList], ["us-east-1".toList], [], []⟩
        "default/us-east-1/s3/b/.git".toList).1.virtualDirs.contains
        "default/us-east-1/s3/b/.git".toList = true)
    ∧ (getAttr (mkdir ⟨["default".toList], ["us-east-1".toList], [], []⟩
          "default/us-east-1/s3/b/.git".toList).1 (fun _ _ _ _ => none)
        "default/us-east-1/s3/b/.git".toList).1 = none := by
  decide

/-- C7 as amended: mkdir adds the path to the virtual-dirs table
unconditionally, with no provider call; for a path P in the table whose
basename is not an ignored probe name and that has no pending-write
handle, stat returns directory attributes without a provider call, and
readdir of any P in the table succeeds (never errors: provider failures
and nil providers yield the empty listing), whatever the provider
oracles answer. -/
theorem virtualdir_stat_readdir (st : EngineState) (pstat : PStat)
    (prd : PReadDir) (name : Str)
    (hv : name ∈ st.virtualDirs)
    (hign : baseName name ∉ ignoredFilesL)
    (hpend : lookupAssoc st.pendingFiles name = none) :
    (∀ (st2 : EngineState) (n2 : Str),
        mkdir st2 n2 = ({ st2 with virtualDirs := n2 :: st2.virtualDirs },
          FStatus.ok))
    ∧ getAttr st pstat name = (some ⟨true, 0o777, 0, 0⟩, false)
    ∧ ∃ l, openDir st prd name = Except.ok l := by
  refine ⟨fun st2 n2 => rfl, ?_, ?_⟩
  · by_cases hne : name = []
    · subst hne
      simp [getAttr]
    · unfold getAttr
      rw [if_neg hne, if_neg (by simpa using hign)]
      simp [hpend, hv]
  · by_cases hne : name = []
    · subst hne
      exact ⟨_, rfl⟩
    · simp only [openDir, if_neg hne]
      by_cases h1 : (parsePath name).2.1 = []
      · simp [h1]
      · by_cases h2 : (parsePath name).2.2.1 = []
        · simp [h1, h2]
        · by_cases h3 : (parsePath name).2.2.1 ∈ knownServicesL
          · cases hprd : prd (parsePath name).1
                (actualRegion (parsePath name).2.1)
                (parsePath name).2.2.1 (parsePath name).2.2.2 with
            | some es => simp [h1, h2, h3, hprd]
            | none => simp [h1, h2, h3, hprd, hv]
          · simp [h1, h2, h3, hv]

/-- C7 witness: a concrete virtual directory under an s3 path stats as
a directory although the provider oracle denies its existence, and its
readdir succeeds although the provider oracle fails. -/
theorem virtualdir_stat_readdir_witness :
    getAttr ⟨["default".toList], ["us-east-1".toList], [],
        ["default/us-east-1/s3/newdir".toList]⟩ (fun _ _ _ _ => none)
      "default/us-east-1/s3/newdir".toList
      = (some ⟨true, 0o777, 0, 0⟩, false) :=
  (virtualdir_stat_readdir _ (fun _ _ _ _ => none) (fun _ _ _ _ => none)
    _ (by decide) (by decide) (by decide)).2.1

end Sisu
